import Mathlib

/-
Shallow embedding of the session core of the `prediction-agent-spoon`
repository (directory `orbiton-agent`):
  * `state/session.py`  — ConversationMessage, ToolExecution, SessionState,
    SessionManager (add_message, add_tool_execution, get_messages,
    get_context, clear_history, ...);
  * `state/persistence.py` — SessionPersistence (save_session, load_session,
    export_session, _format_markdown, _format_text);
  * `agents/factory.py` — AgentSession.execute_async (the execution gate);
  * `console/commands.py` — the `/save` command handler (extension
    inference before calling export_session).

Modelling conventions (stated once, used throughout):
  * Python `datetime` is external standard-library code.  An instant is
    modelled as a tick count (`Nat`); `datetime.isoformat` is modelled by
    the injective decimal rendering `isoformat` below, and
    `datetime.fromisoformat` by its partial inverse `fromisoformat`, which
    fails (Python `ValueError`) on any string that is not a decimal
    numeral, mirroring the fact that `fromisoformat` raises on
    non-ISO-8601 input.  All tick values are valid instants.
  * Python `dict` preserves insertion order; `map<string, any>` fields are
    modelled as association lists `List (String × Json)`.
  * JSON documents are modelled by the `Json` inductive; the pair
    `json.dump` / `json.load` is modelled by storing the parsed document
    in the file map (it is the identity on representable documents), and a
    file that is not valid JSON is the `FileContent.invalid` state.
  * Python numbers appearing in documents are modelled as integers
    (`execution_time` floats round-trip exactly through `json`, so the
    numeric tower is irrelevant to every claim below).
  * Fields that CPython assigns without a type check (`role`, `content`,
    `session_id`, ...) are typed in this embedding; a document holding a
    value of the wrong shape there yields the uncaught `typeError` /
    `valueError` states.  No claim below quantifies over such documents
    except through the concrete instances stated with them.
-/

namespace Orbiton

/-- Python exception classes that occur in the modelled code paths. -/
inductive PyErr where
  | fileNotFound
  | jsonDecode
  | keyError (key : String)
  | valueError (msg : String)
  | typeError (msg : String)
  | runtimeError (msg : String)
  | keyboardInterrupt
  | exception (msg : String)
deriving DecidableEq

/-- JSON documents (Python's `json` value universe, numbers as integers). -/
inductive Json where
  | null
  | bool (b : Bool)
  | num (n : Int)
  | str (s : String)
  | arr (elems : List Json)
  | obj (fields : List (String × Json))

/-- Little-endian decimal digits with explicit fuel, so that the function
is structurally recursive and reduces inside the kernel.  `digitsLE n`
calls it with fuel `n`, which is always sufficient. -/
def digitsAux : Nat → Nat → List Nat
  | _, 0 => []
  | 0, _ + 1 => []
  | fuel + 1, n + 1 => ((n + 1) % 10) :: digitsAux fuel ((n + 1) / 10)

/-- Little-endian decimal digits of a natural number (empty for zero). -/
def digitsLE (n : Nat) : List Nat := digitsAux n n

/-- Value of a little-endian digit list. -/
def ofDigitsLE : List Nat → Nat
  | [] => 0
  | d :: ds => d + 10 * ofDigitsLE ds

/-- Decimal digit to character. -/
def digitToChar : Nat → Char
  | 0 => '0' | 1 => '1' | 2 => '2' | 3 => '3' | 4 => '4'
  | 5 => '5' | 6 => '6' | 7 => '7' | 8 => '8' | _ => '9'

/-- Character to decimal digit, failing on non-digits. -/
def charToDigit? (c : Char) : Option Nat :=
  if c = '0' then some 0 else if c = '1' then some 1
  else if c = '2' then some 2 else if c = '3' then some 3
  else if c = '4' then some 4 else if c = '5' then some 5
  else if c = '6' then some 6 else if c = '7' then some 7
  else if c = '8' then some 8 else if c = '9' then some 9
  else none

/-- Parse every character of a list as a decimal digit. -/
def parseDigits : List Char → Option (List Nat)
  | [] => some []
  | c :: cs =>
    match charToDigit? c, parseDigits cs with
    | some d, some ds => some (d :: ds)
    | _, _ => none

/-- Model of `datetime.isoformat`: the injective decimal rendering of the
tick count (big-endian digit characters). -/
def isoformat (t : Nat) : String :=
  String.mk (((digitsLE t).map digitToChar).reverse)

/-- Model of `datetime.fromisoformat`: partial inverse of `isoformat`;
any string that is not a decimal numeral raises `ValueError`. -/
def fromisoformat (s : String) : Except PyErr Nat :=
  match parseDigits s.data.reverse with
  | some ds => .ok (ofDigitsLE ds)
  | none => .error (.valueError s)

/-- Decimal rendering of an integer. -/
def intFmt (i : Int) : String :=
  match i with
  | .ofNat 0 => "0"
  | .ofNat n => isoformat n
  | .negSucc n => "-" ++ isoformat (n + 1)

mutual

/-- Model of `json.dumps` (compact rendering, whitespace and indentation
not reproduced). -/
def Json.dumps : Json → String
  | .null => "null"
  | .bool true => "true"
  | .bool false => "false"
  | .num i => intFmt i
  | .str s => "\"" ++ s ++ "\""
  | .arr xs => "[" ++ String.intercalate ", " (dumpsElems xs) ++ "]"
  | .obj fs => "\x7b" ++ String.intercalate ", " (dumpsFields fs) ++ "\x7d"

/-- Serialized elements of a JSON array. -/
def dumpsElems : List Json → List String
  | [] => []
  | j :: js => Json.dumps j :: dumpsElems js

/-- Serialized key/value pairs of a JSON object. -/
def dumpsFields : List (String × Json) → List String
  | [] => []
  | (k, v) :: fs => ("\"" ++ k ++ "\": " ++ Json.dumps v) :: dumpsFields fs

end

/-- Lookup of a key in a JSON object field list (Python `dict` access by
key; keys are unique in documents produced by `json.load`). -/
def Json.lookupKey (fields : List (String × Json)) (key : String) : Option Json :=
  match fields with
  | [] => none
  | (k, v) :: rest => if k = key then some v else Json.lookupKey rest key

/-- Python `data[key]` on a parsed document: `KeyError` when the key is
absent, `TypeError` when the document is not an object. -/
def Json.getItem (j : Json) (key : String) : Except PyErr Json :=
  match j with
  | .obj fields =>
    match Json.lookupKey fields key with
    | some v => .ok v
    | none => .error (.keyError key)
  | _ => .error (.typeError "not a mapping")

/-- Python `data.get(key, default)` on a parsed document. -/
def Json.getD (j : Json) (key : String) (dflt : Json) : Json :=
  match j with
  | .obj fields => (Json.lookupKey fields key).getD dflt
  | _ => dflt

/-- String-typed field (see the typing convention in the header). -/
def Json.asString : Json → Except PyErr String
  | .str s => .ok s
  | _ => .error (.typeError "expected str")

/-- Integer-typed field (see the typing convention in the header). -/
def Json.asInt : Json → Except PyErr Int
  | .num n => .ok n
  | _ => .error (.typeError "expected number")

/-- List-typed field (iterating a non-list is modelled as `TypeError`). -/
def Json.asArr : Json → Except PyErr (List Json)
  | .arr xs => .ok xs
  | _ => .error (.typeError "expected list")

/-- Mapping-typed field (see the typing convention in the header). -/
def Json.asObj : Json → Except PyErr (List (String × Json))
  | .obj fs => .ok fs
  | _ => .error (.typeError "expected dict")

/-- `datetime.fromisoformat(value)`: `TypeError` on a non-string value,
`ValueError` on a string that does not parse. -/
def Json.asInstant : Json → Except PyErr Nat
  | .str s => fromisoformat s
  | _ => .error (.typeError "fromisoformat: argument must be str")

/-- An optional string field read with `.get`: an absent key or a JSON
null is Python `None`. -/
def Json.asOptStr : Json → Except PyErr (Option String)
  | .null => .ok none
  | .str s => .ok (some s)
  | _ => .error (.typeError "expected str or null")

/-- An optional list field read with `.get` (`tool_calls`): an absent key
or a JSON null is Python `None`; the elements are kept as raw documents,
as CPython does. -/
def Json.asOptList : Json → Except PyErr (Option (List Json))
  | .null => .ok none
  | .arr xs => .ok (some xs)
  | _ => .error (.typeError "expected list or null")

/-- A Python list comprehension `[f(x) for x in xs]` over fallible `f`:
the first raised exception propagates. -/
def mapE (f : Json → Except PyErr α) : List Json → Except PyErr (List α)
  | [] => .ok []
  | j :: js =>
    match f j with
    | .error e => .error e
    | .ok x =>
      match mapE f js with
      | .error e => .error e
      | .ok xs => .ok (x :: xs)

/-- `ConversationMessage` (state/session.py): a single message of the
conversation.  `timestamp` is an instant (tick count, see header). -/
structure ConversationMessage where
  role : String
  content : String
  timestamp : Nat
  metadata : List (String × Json)
  tool_calls : Option (List Json)

/-- `ConversationMessage.to_dict`. -/
def ConversationMessage.to_dict (m : ConversationMessage) : Json :=
  .obj [
    ("role", .str m.role),
    ("content", .str m.content),
    ("timestamp", .str (isoformat m.timestamp)),
    ("metadata", .obj m.metadata),
    ("tool_calls", match m.tool_calls with
      | none => .null
      | some xs => .arr xs)]

/-- `ConversationMessage.from_dict`. -/
def ConversationMessage.from_dict (data : Json) : Except PyErr ConversationMessage := do
  let role ← (← data.getItem "role").asString
  let content ← (← data.getItem "content").asString
  let timestamp ← (← data.getItem "timestamp").asInstant
  let metadata ← (data.getD "metadata" (.obj [])).asObj
  let tool_calls ← (data.getD "tool_calls" .null).asOptList
  return ⟨role, content, timestamp, metadata, tool_calls⟩

/-- `ToolExecution` (state/session.py): one recorded tool invocation.
`execution_time` is modelled as an integer (see header). -/
structure ToolExecution where
  tool_name : String
  arguments : List (String × Json)
  result : String
  execution_time : Int
  timestamp : Nat
  error : Option String

/-- `ToolExecution.to_dict`. -/
def ToolExecution.to_dict (t : ToolExecution) : Json :=
  .obj [
    ("tool_name", .str t.tool_name),
    ("arguments", .obj t.arguments),
    ("result", .str t.result),
    ("execution_time", .num t.execution_time),
    ("timestamp", .str (isoformat t.timestamp)),
    ("error", match t.error with
      | none => .null
      | some e => .str e)]

/-- `ToolExecution.from_dict`. -/
def ToolExecution.from_dict (data : Json) : Except PyErr ToolExecution := do
  let tool_name ← (← data.getItem "tool_name").asString
  let arguments ← (← data.getItem "arguments").asObj
  let result ← (← data.getItem "result").asString
  let execution_time ← (← data.getItem "execution_time").asInt
  let timestamp ← (← data.getItem "timestamp").asInstant
  let error ← (data.getD "error" .null).asOptStr
  return ⟨tool_name, arguments, result, execution_time, timestamp, error⟩

/-- `SessionState` (state/session.py): the aggregate session state. -/
structure SessionState where
  session_id : String
  created_at : Nat
  updated_at : Nat
  messages : List ConversationMessage
  tool_executions : List ToolExecution
  current_agent : String
  current_model : String
  metadata : List (String × Json)

/-- `SessionState.to_dict`. -/
def SessionState.to_dict (s : SessionState) : Json :=
  .obj [
    ("session_id", .str s.session_id),
    ("created_at", .str (isoformat s.created_at)),
    ("updated_at", .str (isoformat s.updated_at)),
    ("messages", .arr (s.messages.map ConversationMessage.to_dict)),
    ("tool_executions", .arr (s.tool_executions.map ToolExecution.to_dict)),
    ("current_agent", .str s.current_agent),
    ("current_model", .str s.current_model),
    ("metadata", .obj s.metadata)]

/-- `SessionState.from_dict`. -/
def SessionState.from_dict (data : Json) : Except PyErr SessionState := do
  let session_id ← (← data.getItem "session_id").asString
  let created_at ← (← data.getItem "created_at").asInstant
  let updated_at ← (← data.getItem "updated_at").asInstant
  let messages ← mapE ConversationMessage.from_dict (← (data.getD "messages" (.arr [])).asArr)
  let tool_executions ← mapE ToolExecution.from_dict (← (data.getD "tool_executions" (.arr [])).asArr)
  let current_agent ← (data.getD "current_agent" (.str "react")).asString
  let current_model ← (data.getD "current_model" (.str "claude-sonnet-4")).asString
  let metadata ← (data.getD "metadata" (.obj [])).asObj
  return ⟨session_id, created_at, updated_at, messages, tool_executions,
    current_agent, current_model, metadata⟩

/-- Fresh `SessionState` as built by `SessionManager.__init__` /
`create_session`: both instants read the clock at construction time
(`now` supplies the reading), the transcript starts empty. -/
def initSession (now : Nat) (sid agent_type model : String) : SessionState :=
  ⟨sid, now, now, [], [], agent_type, model, []⟩

/-- `SessionManager.add_message`: appends a `ConversationMessage` built
from the arguments (its `timestamp` defaults to the clock) and refreshes
`updated_at` with the clock reading `now`.  There is no validation of
`role`. -/
def add_message (s : SessionState) (now : Nat) (role content : String)
    (metadata : List (String × Json)) (tool_calls : Option (List Json)) :
    SessionState :=
  { s with
    messages := s.messages ++ [⟨role, content, now, metadata, tool_calls⟩],
    updated_at := now }

/-- `SessionManager.add_tool_execution`: appends a `ToolExecution` and
refreshes `updated_at`. -/
def add_tool_execution (s : SessionState) (now : Nat) (tool_name : String)
    (arguments : List (String × Json)) (result : String)
    (execution_time : Int) (error : Option String) : SessionState :=
  { s with
    tool_executions :=
      s.tool_executions ++ [⟨tool_name, arguments, result, execution_time, now, error⟩],
    updated_at := now }

/-- `SessionManager.get_messages(limit, offset)`: `messages[offset:]`,
then `[:limit]` guarded by Python truthiness (`if limit:` skips the cap
when `limit` is `None` or `0`).  Non-negative arguments modelled. -/
def get_messages (s : SessionState) (limit : Option Nat) (offset : Nat) :
    List ConversationMessage :=
  let messages := s.messages.drop offset
  match limit with
  | some l => if l ≠ 0 then messages.take l else messages
  | none => messages

/-- The role/content projection entries built by `get_context`. -/
structure CtxEntry where
  role : String
  content : String
deriving DecidableEq

/-- Character count of the projection (`sum(len(msg["content"]) ...)`). -/
def totalChars (ctx : List CtxEntry) : Nat :=
  (ctx.map (fun e => e.content.length)).sum

/-- The `while context and total_chars > max_tokens * 4:` loop of
`get_context`: pop the oldest entry while the running total exceeds the
budget. -/
def dropOldest (budget : Nat) : List CtxEntry → List CtxEntry
  | [] => []
  | e :: rest =>
    if totalChars (e :: rest) > budget then dropOldest budget rest
    else e :: rest

/-- `SessionManager.get_context(max_tokens)`: role/content projection of
all messages; `if max_tokens:` (Python truthiness: `None` and `0` skip
the trimming), then the outer `if total_chars > max_tokens * 4:` guard
around the pop loop. -/
def get_context (s : SessionState) (max_tokens : Option Nat) : List CtxEntry :=
  let context := s.messages.map (fun m => ⟨m.role, m.content⟩)
  match max_tokens with
  | some mt =>
    if mt ≠ 0 then
      if totalChars context > mt * 4 then dropOldest (mt * 4) context
      else context
    else context
  | none => context

/-- `SessionManager.clear_history`: empties both transcripts and
refreshes `updated_at`. -/
def clear_history (s : SessionState) (now : Nat) : SessionState :=
  { s with messages := [], tool_executions := [], updated_at := now }

/-- Content of one file of the modelled filesystem: a parseable JSON
document, or text that `json.load` rejects. -/
inductive FileContent where
  | json (doc : Json)
  | invalid

/-- The filesystem: a map from paths to file contents. -/
def Fs : Type := String → Option FileContent

/-- `SessionPersistence.save_session`: the target path is the argument
when that is truthy, otherwise
`history_dir/session_<id[:8]>_<created_at>.json`; the document
`state.to_dict()` is written there (json.dump/json.load modelled as
storing the parsed document, see header).  Returns the path and the
updated filesystem. -/
def save_session (fs : Fs) (history_dir : String) (s : SessionState)
    (path : Option String) : String × Fs :=
  let save_path :=
    match path with
    | some p =>
      if p ≠ "" then p
      else history_dir ++ "/session_" ++ (s.session_id.take 8) ++ "_" ++
        isoformat s.created_at ++ ".json"
    | none =>
      history_dir ++ "/session_" ++ (s.session_id.take 8) ++ "_" ++
        isoformat s.created_at ++ ".json"
  (save_path, fun p => if p = save_path then some (.json s.to_dict) else fs p)

/-- Exceptions caught by the `except (FileNotFoundError,
json.JSONDecodeError, KeyError)` clause of `load_session`. -/
def caughtByLoad : PyErr → Bool
  | .fileNotFound => true
  | .jsonDecode => true
  | .keyError _ => true
  | _ => false

/-- Body of the `try:` block of `load_session`: open, parse, deserialize. -/
def loadBody (fs : Fs) (path : String) : Except PyErr SessionState :=
  match fs path with
  | none => .error .fileNotFound
  | some .invalid => .error .jsonDecode
  | some (.json doc) => SessionState.from_dict doc

/-- `SessionPersistence.load_session`: the three caught exception classes
yield `None`; any other exception propagates. -/
def load_session (fs : Fs) (path : String) : Except PyErr (Option SessionState) :=
  match loadBody fs path with
  | .ok s => .ok (some s)
  | .error e => if caughtByLoad e then .ok none else .error e

/-- Python `str.endswith`. -/
def endswith (s suffix : String) : Bool :=
  suffix.data.isSuffixOf s.data

/-- The `%H:%M:%S` clock rendering used in exports, modelled by the
injective tick rendering (its text is never inspected by a claim). -/
def timeHMS (t : Nat) : String := isoformat t

/-- The lines of one message block of `_format_markdown`: an `elif`
chain over the role; a message whose role is none of the three known
markers contributes nothing. -/
def mdMessageLines (m : ConversationMessage) : List String :=
  if m.role = "user" then
    ["## ðŸ‘¤ User [" ++ timeHMS m.timestamp ++ "]", "", m.content, ""]
  else if m.role = "agent" then
    ["## ðŸ¤– Agent [" ++ timeHMS m.timestamp ++ "]", "", m.content, ""]
  else if m.role = "system" then
    ["## ðŸ”§ System [" ++ timeHMS m.timestamp ++ "]", "", m.content, ""]
  else []

/-- The lines of one tool block of `_format_markdown`; the result field
is previewed as `tool.result[:200]`. -/
def mdToolLines (t : ToolExecution) : List String :=
  ["### " ++ t.tool_name ++ " [" ++ timeHMS t.timestamp ++ "]", "",
   "**Arguments:**", "```json", Json.dumps (.obj t.arguments), "```", "",
   "**Result:** " ++ String.mk (t.result.data.take 200) ++ "...", "",
   "**Execution Time:** " ++ intFmt t.execution_time ++ "s"] ++
  (match t.error with
   | some e => ["", "**Error:** " ++ e]
   | none => []) ++ [""]

/-- The header lines of `_format_markdown`. -/
def mdHeaderLines (s : SessionState) : List String :=
  ["# Orbiton Agent Conversation", "",
   "**Session ID:** " ++ s.session_id,
   "**Created:** " ++ isoformat s.created_at,
   "**Updated:** " ++ isoformat s.updated_at,
   "**Agent:** " ++ s.current_agent,
   "**Model:** " ++ s.current_model,
   "", "---", ""]

/-- The title line of the "Tool Executions" section (byte-exact source
marker). -/
def mdToolsTitle (n : Nat) : String :=
  "## ðŸ› ï¸ Tool Executions (" ++ isoformat n ++ ")"

/-- `SessionPersistence._format_markdown`: header, then the message
blocks in transcript order, then — only when `tool_executions` is
non-empty — the "Tool Executions" section in recorded order. -/
def formatMarkdown (s : SessionState) : List String :=
  mdHeaderLines s ++
  s.messages.flatMap mdMessageLines ++
  (if s.tool_executions.isEmpty then []
   else
     ["---", "",
      mdToolsTitle s.tool_executions.length,
      ""] ++
     s.tool_executions.flatMap mdToolLines)

/-- `SessionPersistence._format_text` (plain transcript). -/
def formatText (s : SessionState) : List String :=
  let bar80 (c : String) : String := String.join (List.replicate 80 c)
  [bar80 "=", "ORBITON AGENT CONVERSATION", bar80 "=",
   "Session ID: " ++ s.session_id,
   "Created: " ++ isoformat s.created_at,
   "Updated: " ++ isoformat s.updated_at,
   "Agent: " ++ s.current_agent,
   "Model: " ++ s.current_model,
   bar80 "=", ""] ++
  s.messages.flatMap (fun m =>
    let role_display :=
      if m.role = "user" then "USER"
      else if m.role = "agent" then "AGENT"
      else if m.role = "system" then "SYSTEM"
      else m.role.toUpper
    ["[" ++ timeHMS m.timestamp ++ "] " ++ role_display ++ ":",
     m.content, "", bar80 "-", ""])

/-- The extension-fixing prelude of `SessionPersistence.export_session`:
for the selected format, append the matching extension unless the
filename already carries it. -/
def exportFilename (filename format : String) : String :=
  if format = "md" && !endswith filename ".md" then filename ++ ".md"
  else if format = "json" && !endswith filename ".json" then filename ++ ".json"
  else if format = "txt" && !endswith filename ".txt" then filename ++ ".txt"
  else filename

/-- The content selection of `export_session`: markdown for "md", the
canonical document for "json", and the plain-text rendering for
everything else (the source's final `else` branch). -/
def exportContent (s : SessionState) (format : String) : String :=
  if format = "md" then String.intercalate "\n" (formatMarkdown s)
  else if format = "json" then Json.dumps s.to_dict
  else String.intercalate "\n" (formatText s)

/-- `SessionPersistence.export_session(state, filename, format="md")`:
returns the written filename and content (directory resolution is not
modelled; the name is the path component the source computes). -/
def export_session (s : SessionState) (filename : String)
    (format : String) : String × String :=
  (exportFilename filename format, exportContent s format)

/-- The filename normalization of the `/save` command handler
(console/commands.py): append `.md` when the name carries none of the
three recognized extensions. -/
def cmdSaveFilename (filename : String) : String :=
  if endswith filename ".md" || endswith filename ".json" || endswith filename ".txt"
  then filename else filename ++ ".md"

/-- The format inference of the `/save` command handler: determined from
the (normalized) filename extension. -/
def cmdSaveFormat (filename : String) : String :=
  if endswith filename ".json" then "json"
  else if endswith filename ".txt" then "txt"
  else "md"

/-- `AgentSession` gate state (agents/factory.py): the two flags. -/
structure GateState where
  executing : Bool
  interrupted : Bool
deriving DecidableEq

/-- Outcome of the single external call `await self.agent.run(user_input)`:
a response, a cancellation (`KeyboardInterrupt`), or an exception. -/
inductive AgentOutcome where
  | ok (response : String)
  | keyboardInterrupt
  | exc (msg : String)

/-- Result of `execute_async` as seen by the caller: a returned response
or a raised exception. -/
inductive ExecResult where
  | ok (response : String)
  | raised (e : PyErr)
deriving DecidableEq

/-- `AgentSession.execute_async`: fail fast with
`RuntimeError("Agent is already executing")` when `executing` is already
set; otherwise set `executing`, clear `interrupted`, run the agent call
with the given outcome, re-raise `KeyboardInterrupt` after setting
`interrupted`, wrap any other exception in
`Exception("Agent execution failed: ...")`, and reset `executing` in the
`finally` block on every path.  `user_input` only feeds logging and the
call itself.  `execute` is `run_until_complete` of this coroutine and
has identical observable behavior. -/
def execute_async (s : GateState) (user_input : String)
    (outcome : AgentOutcome) : ExecResult × GateState :=
  if s.executing then
    (.raised (.runtimeError "Agent is already executing"), s)
  else
    match outcome with
    | .ok response => (.ok response, ⟨false, false⟩)
    | .keyboardInterrupt => (.raised .keyboardInterrupt, ⟨false, true⟩)
    | .exc msg =>
      (.raised (.exception ("Agent execution failed: " ++ msg)), ⟨false, false⟩)

/-- A fresh concrete session used by concrete instances below. -/
def exampleSession : SessionState :=
  initSession 0 "sid-123" "react" "claude-sonnet-4"

/-- A concrete session holding a single short user message. -/
def exampleHi : SessionState :=
  add_message exampleSession 1 "user" "hi" [] none

/-- The scenario session: user "Hello", then agent "Hi there". -/
def exampleHello : SessionState :=
  add_message (add_message exampleSession 1 "user" "Hello" [] none)
    2 "agent" "Hi there" [] none

/-- A session whose projection holds 5 + 3 content characters. -/
def exampleLong : SessionState :=
  add_message (add_message exampleSession 1 "user" "aaaaa" [] none)
    2 "agent" "bbb" [] none

/-- One call of the `add_message` mutator: the clock reading consumed by
the call, and the arguments. -/
structure AddCall where
  time : Nat
  role : String
  content : String
  metadata : List (String × Json)
  tool_calls : Option (List Json)

/-- The message record a single `add_message` call appends. -/
def AddCall.message (c : AddCall) : ConversationMessage :=
  ⟨c.role, c.content, c.time, c.metadata, c.tool_calls⟩

/-- A sequence of `add_message` calls applied in order. -/
def applyAdds (s : SessionState) : List AddCall → SessionState
  | [] => s
  | c :: rest => applyAdds (add_message s c.time c.role c.content c.metadata c.tool_calls) rest

/-- A parsed document with no keys at all (required key absent). -/
def docNoKey : Json := .obj []

/-- A parsed document whose `created_at` is not a valid instant string. -/
def docBadTs : Json :=
  .obj [("session_id", .str "s"), ("created_at", .str "bogus"),
        ("updated_at", .str "1")]

/-- A one-file filesystem holding the bad-timestamp document. -/
def fsBadTs : Fs :=
  fun p => if p = "a.json" then some (.json docBadTs) else none

-- ------------------------------------------------------------------
-- Helper lemmas: the decimal instant rendering is inverted by parsing.
-- ------------------------------------------------------------------

theorem ofDigitsLE_digitsAux (fuel : Nat) :
    ∀ n, n ≤ fuel → ofDigitsLE (digitsAux fuel n) = n := by
  induction fuel with
  | zero =>
    intro n hn
    interval_cases n
    rfl
  | succ f ih =>
    intro n hn
    match n with
    | 0 => rfl
    | n + 1 =>
      have hdiv : (n + 1) / 10 ≤ f := by
        have h1 : (n + 1) / 10 < n + 1 := Nat.div_lt_self (Nat.succ_pos n) (by omega)
        omega
      show ofDigitsLE (((n + 1) % 10) :: digitsAux f ((n + 1) / 10)) = n + 1
      simp only [ofDigitsLE, ih _ hdiv]
      omega

theorem digitsAux_lt (fuel : Nat) :
    ∀ n d, d ∈ digitsAux fuel n → d < 10 := by
  induction fuel with
  | zero =>
    intro n d hd
    match n with
    | 0 => simp [digitsAux] at hd
    | n + 1 => simp [digitsAux] at hd
  | succ f ih =>
    intro n d hd
    match n with
    | 0 => simp [digitsAux] at hd
    | n + 1 =>
      simp only [digitsAux, List.mem_cons] at hd
      rcases hd with h | h
      · omega
      · exact ih _ _ h

theorem charToDigit?_digitToChar (d : Nat) (hd : d < 10) :
    charToDigit? (digitToChar d) = some d := by
  interval_cases d <;> rfl

theorem parseDigits_map (ds : List Nat) (h : ∀ d ∈ ds, d < 10) :
    parseDigits (ds.map digitToChar) = some ds := by
  induction ds with
  | nil => rfl
  | cons d rest ih =>
    have hd : d < 10 := h d (List.mem_cons_self _ _)
    have hrest := ih (fun x hx => h x (List.mem_cons_of_mem _ hx))
    simp [parseDigits, charToDigit?_digitToChar d hd, hrest]

theorem fromisoformat_isoformat (t : Nat) :
    fromisoformat (isoformat t) = .ok t := by
  have hdata : (String.mk (((digitsLE t).map digitToChar).reverse)).data
      = ((digitsLE t).map digitToChar).reverse := rfl
  unfold fromisoformat isoformat
  rw [hdata, List.reverse_reverse,
    parseDigits_map (digitsLE t) (fun d hd => digitsAux_lt t t d hd)]
  unfold digitsLE
  show Except.ok (ofDigitsLE (digitsAux t t)) = Except.ok t
  rw [ofDigitsLE_digitsAux t t le_rfl]

-- ------------------------------------------------------------------
-- C1, C3: the execution gate.
-- ------------------------------------------------------------------

/-- C1: while `executing` is true, `execute`/`execute_async` fails
immediately with the `AlreadyExecuting` error
(`RuntimeError("Agent is already executing")`), independently of
whatever the agent call would have produced (so the agent is not
invoked and no input is queued), and the gate state is returned exactly
as it was: `executing` stays true and `interrupted` is unchanged. -/
theorem executeAsync_alreadyExecuting (s : GateState) (input : String)
    (outcome : AgentOutcome) (h : s.executing = true) :
    execute_async s input outcome
      = (.raised (.runtimeError "Agent is already executing"), s) := by
  simp [execute_async, h]

/-- Witness for C1 at a concrete in-flight state. -/
theorem executeAsync_alreadyExecuting_witness :
    (⟨true, false⟩ : GateState).executing = true ∧
      execute_async ⟨true, false⟩ "hello" (.ok "resp")
        = (.raised (.runtimeError "Agent is already executing"), ⟨true, false⟩) :=
  ⟨rfl, executeAsync_alreadyExecuting ⟨true, false⟩ "hello" (.ok "resp") rfl⟩

/-- C3: when a call starts (`executing` was false), `executing` is false
again after every return path; on cancellation the `interrupted` flag is
set and the `KeyboardInterrupt` is re-raised, not swallowed; any other
exception of the agent call is surfaced as the wrapped
`Exception("Agent execution failed: ...")` (the AgentError of the spec),
never as the raw exception; a normal return hands the response through
with `interrupted` cleared. -/
theorem executeAsync_returnPaths (s : GateState) (input : String)
    (h : s.executing = false) :
    (∀ outcome, (execute_async s input outcome).2.executing = false)
    ∧ (∀ r, execute_async s input (.ok r) = (.ok r, ⟨false, false⟩))
    ∧ execute_async s input .keyboardInterrupt
        = (.raised .keyboardInterrupt, ⟨false, true⟩)
    ∧ (∀ m, execute_async s input (.exc m)
        = (.raised (.exception ("Agent execution failed: " ++ m)), ⟨false, false⟩)) := by
  refine ⟨fun outcome => ?_, fun r => ?_, ?_, fun m => ?_⟩ <;>
    first
    | (cases outcome <;> simp [execute_async, h])
    | simp [execute_async, h]

/-- Witness for C3: the cancellation path at a concrete idle state. -/
theorem executeAsync_returnPaths_witness :
    (⟨false, true⟩ : GateState).executing = false ∧
      execute_async ⟨false, true⟩ "q" .keyboardInterrupt
        = (.raised .keyboardInterrupt, ⟨false, true⟩) :=
  ⟨rfl, (executeAsync_returnPaths ⟨false, true⟩ "q" rfl).2.2.1⟩

-- ------------------------------------------------------------------
-- C4: add_message accepts every role (no InvalidRole in the source).
-- ------------------------------------------------------------------

/-- C4 counterexample: with the invalid role "bogus", `add_message` does
not fail — it appends the message exactly as for a valid role and
refreshes `updated_at` (the source performs no role validation and
defines no `InvalidRole` error). -/
theorem addMessage_invalidRole_counterexample :
    (add_message exampleSession 1 "bogus" "x" [] none).messages
      = [⟨"bogus", "x", 1, [], none⟩]
    ∧ (add_message exampleSession 1 "bogus" "x" [] none).updated_at = 1 :=
  ⟨rfl, rfl⟩

/-- C4 amended: `add_message` appends one `ConversationMessage` and
refreshes `updated_at` for every role — including roles outside
{user, agent, system}, which are accepted rather than rejected; no other
field of the session changes. -/
theorem addMessage_appends (s : SessionState) (now : Nat)
    (role content : String) (metadata : List (String × Json))
    (tool_calls : Option (List Json)) :
    (add_message s now role content metadata tool_calls).messages
      = s.messages ++ [⟨role, content, now, metadata, tool_calls⟩]
    ∧ (add_message s now role content metadata tool_calls).updated_at = now
    ∧ (add_message s now role content metadata tool_calls).created_at = s.created_at
    ∧ (add_message s now role content metadata tool_calls).tool_executions
        = s.tool_executions
    ∧ (add_message s now role content metadata tool_calls).session_id = s.session_id :=
  ⟨rfl, rfl, rfl, rfl, rfl⟩

-- ------------------------------------------------------------------
-- C2: save_session followed by load_session round-trips the state.
-- ------------------------------------------------------------------

theorem except_bind_ok {α β : Type} (a : α) (f : α → Except PyErr β) :
    (Except.ok a : Except PyErr α) >>= f = f a := rfl

theorem except_bind_err {α β : Type} (e : PyErr) (f : α → Except PyErr β) :
    (Except.error e : Except PyErr α) >>= f = Except.error e := rfl

theorem except_pure {α : Type} (a : α) :
    (pure a : Except PyErr α) = Except.ok a := rfl

theorem fromDict_toDict_message (m : ConversationMessage) :
    ConversationMessage.from_dict m.to_dict = .ok m := by
  cases m with
  | mk role content timestamp metadata tool_calls =>
    cases tool_calls <;>
      simp [ConversationMessage.from_dict, ConversationMessage.to_dict,
        Json.getItem, Json.lookupKey, Json.getD, Json.asString, Json.asInstant,
        Json.asObj, Json.asOptList, fromisoformat_isoformat,
        except_bind_ok, except_pure]

theorem fromDict_toDict_tool (t : ToolExecution) :
    ToolExecution.from_dict t.to_dict = .ok t := by
  cases t with
  | mk tool_name arguments result execution_time timestamp error =>
    cases error <;>
      simp [ToolExecution.from_dict, ToolExecution.to_dict,
        Json.getItem, Json.lookupKey, Json.getD, Json.asString, Json.asInstant,
        Json.asObj, Json.asInt, Json.asOptStr, fromisoformat_isoformat,
        except_bind_ok, except_pure]

theorem mapE_roundtrip {α : Type} (f : Json → Except PyErr α) (g : α → Json)
    (xs : List α) (h : ∀ x ∈ xs, f (g x) = .ok x) :
    mapE f (xs.map g) = .ok xs := by
  induction xs with
  | nil => rfl
  | cons x rest ih =>
    have hx : f (g x) = .ok x := h x (List.mem_cons_self _ _)
    have hrest := ih (fun y hy => h y (List.mem_cons_of_mem _ hy))
    simp [mapE, hx, hrest]

theorem fromDict_toDict_session (s : SessionState) :
    SessionState.from_dict s.to_dict = .ok s := by
  cases s with
  | mk session_id created_at updated_at messages tool_executions
      current_agent current_model metadata =>
    simp [SessionState.from_dict, SessionState.to_dict,
      Json.getItem, Json.lookupKey, Json.getD, Json.asString, Json.asInstant,
      Json.asObj, Json.asArr, fromisoformat_isoformat,
      mapE_roundtrip ConversationMessage.from_dict ConversationMessage.to_dict
        messages (fun m _ => fromDict_toDict_message m),
      mapE_roundtrip ToolExecution.from_dict ToolExecution.to_dict
        tool_executions (fun t _ => fromDict_toDict_tool t),
      except_bind_ok, except_pure]

/-- C2: for every session state (all fields of the embedding are
JSON-representable and every instant is valid, see the header),
`save_session` followed by `load_session` on the returned path yields a
state equal to the original in every field — in particular `messages`
and `tool_executions` come back with the same elements in the same
order and count.  Holds for an explicit target path and for the
auto-derived one alike. -/
theorem saveLoad_roundtrip (fs : Fs) (history_dir : String)
    (s : SessionState) (path : Option String) :
    load_session (save_session fs history_dir s path).2
      (save_session fs history_dir s path).1 = .ok (some s) := by
  unfold load_session loadBody save_session
  simp [fromDict_toDict_session s]

-- ------------------------------------------------------------------
-- C10: the soft-failure policy of load_session.
-- ------------------------------------------------------------------

/-- C10: `load_session` yields `None` exactly for the three caught
exception classes — missing file (`FileNotFoundError`), unparseable
document (`json.JSONDecodeError`), absent required key (`KeyError`) —
while every other deserialization failure propagates: deserialization
returning any uncaught exception (in particular the `ValueError` of an
invalid instant string, as in `docBadTs`) reaches the caller as that
exception rather than as `None`. -/
theorem loadSession_softFailure (fs : Fs) (path : String) :
    (fs path = none → load_session fs path = .ok none)
    ∧ (fs path = some .invalid → load_session fs path = .ok none)
    ∧ (∀ doc s', fs path = some (.json doc) →
        SessionState.from_dict doc = .ok s' →
        load_session fs path = .ok (some s'))
    ∧ (∀ doc e, fs path = some (.json doc) →
        SessionState.from_dict doc = .error e →
        load_session fs path = (if caughtByLoad e then .ok none else .error e))
    ∧ (fs path = some (.json docNoKey) → load_session fs path = .ok none)
    ∧ (fs path = some (.json docBadTs) →
        load_session fs path = .error (.valueError "bogus")) := by
  have hNoKey : SessionState.from_dict docNoKey = .error (.keyError "session_id") := rfl
  have hBadTs : SessionState.from_dict docBadTs = .error (.valueError "bogus") := rfl
  refine ⟨fun h => ?_, fun h => ?_, fun doc s' h hd => ?_, fun doc e h hd => ?_,
    fun h => ?_, fun h => ?_⟩
  · simp [load_session, loadBody, h, caughtByLoad]
  · simp [load_session, loadBody, h, caughtByLoad]
  · simp [load_session, loadBody, h, hd]
  · simp only [load_session, loadBody, h, hd]
  · simp [load_session, loadBody, h, hNoKey, caughtByLoad]
  · simp [load_session, loadBody, h, hBadTs, caughtByLoad]

/-- Witness for C10: the invalid-instant document propagates its
`ValueError` instead of yielding `None`. -/
theorem loadSession_softFailure_witness :
    fsBadTs "a.json" = some (.json docBadTs)
    ∧ load_session fsBadTs "a.json" = .error (.valueError "bogus") :=
  ⟨rfl, (loadSession_softFailure fsBadTs "a.json").2.2.2.2.2 rfl⟩

-- ------------------------------------------------------------------
-- C5: add_message sequences keep order, updated_at is monotone.
-- ------------------------------------------------------------------

theorem applyAdds_messages (calls : List AddCall) :
    ∀ s, (applyAdds s calls).messages = s.messages ++ calls.map AddCall.message := by
  induction calls with
  | nil => intro s; simp [applyAdds]
  | cons c rest ih =>
    intro s
    simp [applyAdds, ih, add_message, AddCall.message]

theorem applyAdds_created (calls : List AddCall) :
    ∀ s, (applyAdds s calls).created_at = s.created_at := by
  induction calls with
  | nil => intro s; rfl
  | cons c rest ih => intro s; simp [applyAdds, ih, add_message]

theorem applyAdds_take_mono (calls : List AddCall) :
    ∀ s, List.Chain (· ≤ ·) s.updated_at (calls.map AddCall.time) →
      ∀ n, (applyAdds s (calls.take n)).updated_at
        ≤ (applyAdds s (calls.take (n + 1))).updated_at := by
  induction calls with
  | nil => intro s _ n; simp [applyAdds]
  | cons c rest ih =>
    intro s h n
    rw [List.map_cons, List.chain_cons] at h
    obtain ⟨h1, h2⟩ := h
    match n with
    | 0 =>
      show (applyAdds s []).updated_at ≤ (applyAdds s [c]).updated_at
      simpa [applyAdds, add_message] using h1
    | n + 1 =>
      rw [List.take_succ_cons, List.take_succ_cons]
      show (applyAdds (add_message s c.time c.role c.content c.metadata c.tool_calls)
          (rest.take n)).updated_at
        ≤ (applyAdds (add_message s c.time c.role c.content c.metadata c.tool_calls)
          (rest.take (n + 1))).updated_at
      exact ih _ h2 n

theorem applyAdds_ge_created (calls : List AddCall) :
    ∀ s, List.Chain (· ≤ ·) s.updated_at (calls.map AddCall.time) →
      s.created_at ≤ s.updated_at →
      ∀ n, (applyAdds s (calls.take n)).created_at
        ≤ (applyAdds s (calls.take n)).updated_at := by
  induction calls with
  | nil => intro s _ hinv n; simpa [applyAdds] using hinv
  | cons c rest ih =>
    intro s h hinv n
    rw [List.map_cons, List.chain_cons] at h
    obtain ⟨h1, h2⟩ := h
    match n with
    | 0 => simpa [applyAdds] using hinv
    | n + 1 =>
      rw [List.take_succ_cons]
      show (applyAdds (add_message s c.time c.role c.content c.metadata c.tool_calls)
          (rest.take n)).created_at
        ≤ (applyAdds (add_message s c.time c.role c.content c.metadata c.tool_calls)
          (rest.take n)).updated_at
      exact ih _ h2 (by simpa [add_message] using hinv.trans h1) n

/-- C5: for every sequence of `add_message` calls whose clock readings
are non-decreasing (chained from the creation instant `t0`),
`get_messages()` returns the appended messages in exact call order,
`updated_at` is monotone non-decreasing along the sequence of
mutations, and `updated_at >= created_at` holds after every mutation. -/
theorem addMessage_sequence (t0 : Nat) (sid agent model : String)
    (calls : List AddCall)
    (h : List.Chain (· ≤ ·) t0 (calls.map AddCall.time)) :
    get_messages (applyAdds (initSession t0 sid agent model) calls) none 0
      = calls.map AddCall.message
    ∧ Monotone (fun n =>
        (applyAdds (initSession t0 sid agent model) (calls.take n)).updated_at)
    ∧ (∀ n, (applyAdds (initSession t0 sid agent model) (calls.take n)).created_at
        ≤ (applyAdds (initSession t0 sid agent model) (calls.take n)).updated_at) := by
  refine ⟨?_, ?_, ?_⟩
  · simp [get_messages, applyAdds_messages, initSession]
  · exact monotone_nat_of_le_succ (applyAdds_take_mono calls _ h)
  · exact applyAdds_ge_created calls _ h le_rfl

/-- Witness for C5 at a concrete two-call sequence. -/
theorem addMessage_sequence_witness :
    List.Chain (· ≤ ·) 0
      ([⟨1, "user", "a", [], none⟩, ⟨2, "agent", "b", [], none⟩].map AddCall.time)
    ∧ get_messages
        (applyAdds (initSession 0 "sid" "react" "m")
          [⟨1, "user", "a", [], none⟩, ⟨2, "agent", "b", [], none⟩]) none 0
      = [⟨"user", "a", 1, [], none⟩, ⟨"agent", "b", 2, [], none⟩] := by
  have hch' : List.Chain (· ≤ ·) 0 [1, 2] :=
    .cons (by omega) (.cons (by omega) .nil)
  have hch : List.Chain (· ≤ ·) 0
      ([(⟨1, "user", "a", [], none⟩ : AddCall),
        ⟨2, "agent", "b", [], none⟩].map AddCall.time) := hch'
  exact ⟨hch, (addMessage_sequence 0 "sid" "react" "m" _ hch).1⟩

-- ------------------------------------------------------------------
-- C6: get_context trims from the front down to the character budget.
-- ------------------------------------------------------------------

theorem dropOldest_suffix (b : Nat) (ctx : List CtxEntry) :
    dropOldest b ctx <:+ ctx := by
  induction ctx with
  | nil => simp [dropOldest]
  | cons e rest ih =>
    by_cases h : totalChars (e :: rest) > b
    · simp only [dropOldest, if_pos h]
      exact ih.trans (List.suffix_cons e rest)
    · simp [dropOldest, h]

theorem dropOldest_le (b : Nat) (ctx : List CtxEntry) :
    totalChars (dropOldest b ctx) ≤ b := by
  induction ctx with
  | nil => simp [dropOldest, totalChars]
  | cons e rest ih =>
    by_cases h : totalChars (e :: rest) > b
    · simpa [dropOldest, h] using ih
    · simp only [dropOldest, if_neg h]
      omega

theorem dropOldest_max (b : Nat) (ctx : List CtxEntry) :
    ∀ t, t <:+ ctx → totalChars t ≤ b → t <:+ dropOldest b ctx := by
  induction ctx with
  | nil =>
    intro t ht _
    simpa [dropOldest] using ht
  | cons e rest ih =>
    intro t ht hle
    by_cases h : totalChars (e :: rest) > b
    · simp only [dropOldest, if_pos h]
      rcases List.suffix_cons_iff.1 ht with rfl | h'
      · omega
      · exact ih t h' hle
    · simpa [dropOldest, h] using ht

/-- C6 (amended for Python truthiness): `get_context` with no budget is
the role/content projection of all messages in transcript order; with a
NONZERO `max_tokens` it removes the oldest entry one at a time while the
total content length exceeds `max_tokens * 4`, stopping as soon as the
budget is met or the list is empty — the result is the longest suffix of
the projection whose total content length is at most `max_tokens * 4`
(a `max_tokens` of 0 is falsy in `if max_tokens:` and disables trimming,
which is why the nonzero proviso is needed). -/
theorem getContext_trims (s : SessionState) (mt : Nat) (hmt : mt ≠ 0) :
    get_context s none = s.messages.map (fun m => ⟨m.role, m.content⟩)
    ∧ get_context s (some mt) <:+ s.messages.map (fun m => ⟨m.role, m.content⟩)
    ∧ totalChars (get_context s (some mt)) ≤ mt * 4
    ∧ (∀ t, t <:+ s.messages.map (fun m => ⟨m.role, m.content⟩) →
        totalChars t ≤ mt * 4 → t <:+ get_context s (some mt)) := by
  refine ⟨rfl, ?_, ?_, ?_⟩ <;>
    by_cases h : totalChars (s.messages.map (fun m => ⟨m.role, m.content⟩)) > mt * 4
  · simpa [get_context, hmt, h] using
      dropOldest_suffix (mt * 4) (s.messages.map (fun m => ⟨m.role, m.content⟩))
  · simp [get_context, hmt, h]
  · simpa [get_context, hmt, h] using
      dropOldest_le (mt * 4) (s.messages.map (fun m => ⟨m.role, m.content⟩))
  · simp only [get_context, hmt, ne_eq, not_false_eq_true, if_true, if_neg h]
    omega
  · intro t ht hle
    simpa [get_context, hmt, h] using
      dropOldest_max (mt * 4) (s.messages.map (fun m => ⟨m.role, m.content⟩)) t ht hle
  · intro t ht hle
    simpa [get_context, hmt, h] using ht

/-- Witness for C6 at a concrete budget of one token (four characters):
the 5-character message is dropped, the 3-character one is kept. -/
theorem getContext_trims_witness :
    (1 : Nat) ≠ 0
    ∧ get_context exampleLong (some 1) = [⟨"agent", "bbb"⟩]
    ∧ get_context exampleLong (some 1)
        <:+ exampleLong.messages.map (fun m => ⟨m.role, m.content⟩) :=
  ⟨by decide, by decide, (getContext_trims exampleLong 1 (by decide)).2.1⟩

/-- C6 counterexample: with `max_tokens = 0` supplied, the claimed
budget bound fails — `if max_tokens:` is false for 0, so nothing is
trimmed and the result keeps 2 > 0 content characters. -/
theorem getContext_zero_counterexample :
    get_context exampleHi (some 0) = [⟨"user", "hi"⟩]
    ∧ ¬ totalChars (get_context exampleHi (some 0)) ≤ 0 * 4 :=
  ⟨by decide, by decide⟩

-- ------------------------------------------------------------------
-- C7: get_messages slices by offset and (nonzero) limit.
-- ------------------------------------------------------------------

/-- C7 (amended for Python truthiness): `get_messages` returns the pure
snapshot slice — `offset` skips from the start and a NONZERO `limit`
caps the count after the offset, so element `i` of the result is element
`offset + i` of the transcript while `i < limit`; an absent limit
returns every position from `offset` on, and a `limit` of 0 is falsy in
`if limit:` and behaves like an absent limit rather than returning zero
messages.  The call reads the state and mutates nothing (it is a pure
projection of the message list). -/
theorem getMessages_slices (s : SessionState) (l offset : Nat) :
    get_messages s none offset = s.messages.drop offset
    ∧ get_messages s (some 0) offset = s.messages.drop offset
    ∧ (l ≠ 0 → get_messages s (some l) offset = (s.messages.drop offset).take l)
    ∧ (l ≠ 0 → ∀ i, (get_messages s (some l) offset)[i]? =
        if i < l then s.messages[offset + i]? else none) := by
  refine ⟨rfl, by simp [get_messages], fun hl => by simp [get_messages, hl],
    fun hl i => ?_⟩
  simp [get_messages, hl, List.getElem?_take, List.getElem?_drop]

/-- Witness for C7: offset 1 and limit 1 select exactly the second
message. -/
theorem getMessages_slices_witness :
    (1 : Nat) ≠ 0
    ∧ get_messages exampleHello (some 1) 1 = [⟨"agent", "Hi there", 2, [], none⟩] :=
  ⟨by decide, ((getMessages_slices exampleHello 1 1).2.2.1 (by decide)).trans (by rfl)⟩

/-- C7 counterexample: with `limit = 0` the claim demands zero messages
(positions `offset` through `offset - 1`), but `if limit:` is false for
0, so the whole suffix is returned: one message here. -/
theorem getMessages_zeroLimit_counterexample :
    (get_messages exampleHi (some 0) 0).length = 1 := rfl

-- ------------------------------------------------------------------
-- C8: markdown export ordering.
-- ------------------------------------------------------------------

theorem mdMessageLines_form (m : ConversationMessage)
    (h : m.role = "user" ∨ m.role = "agent" ∨ m.role = "system") :
    mdMessageLines m =
      [(if m.role = "user" then "## ðŸ‘¤ User"
        else if m.role = "agent" then "## ðŸ¤– Agent"
        else "## ðŸ”§ System") ++ " [" ++ timeHMS m.timestamp ++ "]",
       "", m.content, ""] := by
  rcases h with h1 | h1 | h1 <;> simp [mdMessageLines, h1]

theorem contents_sublist (msgs : List ConversationMessage)
    (h : ∀ m ∈ msgs, m.role = "user" ∨ m.role = "agent" ∨ m.role = "system") :
    (msgs.map (fun m => m.content)).Sublist (msgs.flatMap mdMessageLines) := by
  induction msgs with
  | nil => simp
  | cons m rest ih =>
    have hm := h m (List.mem_cons_self _ _)
    have hrest := ih (fun x hx => h x (List.mem_cons_of_mem _ hx))
    rw [List.map_cons, List.flatMap_cons, mdMessageLines_form m hm]
    exact List.Sublist.append
      (List.Sublist.cons _ (List.Sublist.cons _
        (List.Sublist.cons₂ _ (List.Sublist.cons _ List.Sublist.slnil))))
      hrest

/-- C8: the markdown export is the header block, then every message in
transcript order under its role marker (given the documented role
enumeration), then — only when tool executions exist — a separate
"Tool Executions" section in recorded order whose result fields are
previews of at most 200 characters; messages and tool executions are
never interleaved.  The final conjunct is the concrete scenario: after
user "Hello" then agent "Hi there", the document carries the session id
in the header, then "Hello" under the user marker, then "Hi there"
under the agent marker, in that order. -/
theorem markdownExport_structure (s : SessionState)
    (h : ∀ m ∈ s.messages, m.role = "user" ∨ m.role = "agent" ∨ m.role = "system") :
    (s.messages.map (fun m => m.content)).Sublist (formatMarkdown s)
    ∧ (∀ m ∈ s.messages, mdMessageLines m =
        [(if m.role = "user" then "## ðŸ‘¤ User"
          else if m.role = "agent" then "## ðŸ¤– Agent"
          else "## ðŸ”§ System") ++ " [" ++ timeHMS m.timestamp ++ "]",
         "", m.content, ""])
    ∧ (s.tool_executions = [] →
        formatMarkdown s = mdHeaderLines s ++ s.messages.flatMap mdMessageLines)
    ∧ (s.tool_executions ≠ [] →
        formatMarkdown s = mdHeaderLines s ++ s.messages.flatMap mdMessageLines
          ++ (["---", "", mdToolsTitle s.tool_executions.length, ""]
              ++ s.tool_executions.flatMap mdToolLines))
    ∧ (∀ t ∈ s.tool_executions,
        ("**Result:** " ++ String.mk (t.result.data.take 200) ++ "...") ∈ mdToolLines t
        ∧ (String.mk (t.result.data.take 200)).length ≤ 200)
    ∧ ["**Session ID:** sid-123",
       "## ðŸ‘¤ User [1]", "Hello",
       "## ðŸ¤– Agent [2]", "Hi there"].Sublist (formatMarkdown exampleHello) := by
  refine ⟨?_, fun m hm => mdMessageLines_form m (h m hm), fun he => ?_,
    fun hne => ?_, fun t ht => ⟨?_, ?_⟩, ?_⟩
  · have h1 := contents_sublist s.messages h
    have h2 : (s.messages.flatMap mdMessageLines).Sublist (formatMarkdown s) := by
      unfold formatMarkdown
      exact (List.sublist_append_right (mdHeaderLines s) _).trans
        (List.sublist_append_left _ _)
    exact h1.trans h2
  · unfold formatMarkdown
    simp [he]
  · unfold formatMarkdown
    cases htool : s.tool_executions with
    | nil => exact absurd htool hne
    | cons a rest => rw [← htool]; simp [htool]
  · simp [mdToolLines]
  · show (t.result.data.take 200).length ≤ 200
    exact List.length_take_le _ _
  · decide

/-- Witness for C8 at the scenario session (both roles are valid). -/
theorem markdownExport_structure_witness :
    (∀ m ∈ exampleHello.messages,
      m.role = "user" ∨ m.role = "agent" ∨ m.role = "system")
    ∧ (exampleHello.messages.map (fun m => m.content)).Sublist
        (formatMarkdown exampleHello) :=
  ⟨by decide, (markdownExport_structure exampleHello (by decide)).1⟩

-- ------------------------------------------------------------------
-- C9: export format selection (inference lives in the /save handler).
-- ------------------------------------------------------------------

theorem endswith_append (a b : String) : endswith (a ++ b) b = true := by
  unfold endswith
  rw [String.data_append]
  exact List.isSuffixOf_iff_suffix.2 (List.suffix_append _ _)

theorem endswith_last (s t : String) (h : endswith s t = true) (c : Char)
    (hc : t.data.getLast? = some c) : s.data.getLast? = some c := by
  unfold endswith at h
  obtain ⟨pre, hp⟩ := List.isSuffixOf_iff_suffix.1 h
  rw [← hp, List.getLast?_append, hc]
  rfl

theorem endswith_excl (s t u : String) (ht : endswith s t = true)
    (ct cu : Char) (hct : t.data.getLast? = some ct)
    (hcu : u.data.getLast? = some cu) (hne : ct ≠ cu) :
    endswith s u = false := by
  cases hu : endswith s u
  · rfl
  · exfalso
    have h1 := endswith_last s t ht ct hct
    have h2 := endswith_last s u hu cu hcu
    rw [h1] at h2
    exact hne (Option.some.inj h2)

/-- C9 counterexample: `export_session` called without an explicit
format (the Python default `format="md"`) on the filename "out.json"
does NOT infer JSON from the extension — it appends ".md", writes
"out.json.md" and produces the markdown rendering, which differs from
the JSON document the claimed inference would produce. -/
theorem exportSession_noInference_counterexample :
    (export_session exampleSession "out.json" "md").1 = "out.json.md"
    ∧ (export_session exampleSession "out.json" "md").2
        = String.intercalate "\n" (formatMarkdown exampleSession)
    ∧ String.intercalate "\n" (formatMarkdown exampleSession)
        ≠ Json.dumps exampleSession.to_dict := by
  refine ⟨by decide, rfl, by decide⟩

/-- C9 amended: `export_session` itself never inspects the filename to
choose a format — without an explicit format it produces markdown and
appends ".md" unless already present.  The extension-based inference the
spec describes is performed by the `/save` command handler, which first
appends ".md" when no recognized extension is present and then selects
the format from the resulting filename's extension before calling
`export_session`; along that path the chosen format always matches the
extension, the filename is not renamed again, and an unrecognized
extension yields ".md" with markdown content. -/
theorem savePath_formatInference (s : SessionState) (filename : String) :
    ((export_session s (cmdSaveFilename filename)
        (cmdSaveFormat (cmdSaveFilename filename))).1 = cmdSaveFilename filename)
    ∧ (endswith filename ".json" = true →
        cmdSaveFormat (cmdSaveFilename filename) = "json"
        ∧ (export_session s (cmdSaveFilename filename) "json").2
            = Json.dumps s.to_dict)
    ∧ (endswith filename ".txt" = true →
        cmdSaveFormat (cmdSaveFilename filename) = "txt"
        ∧ (export_session s (cmdSaveFilename filename) "txt").2
            = String.intercalate "\n" (formatText s))
    ∧ (endswith filename ".md" = true →
        cmdSaveFormat (cmdSaveFilename filename) = "md"
        ∧ (export_session s (cmdSaveFilename filename) "md").2
            = String.intercalate "\n" (formatMarkdown s))
    ∧ (endswith filename ".md" = false → endswith filename ".json" = false →
        endswith filename ".txt" = false →
        cmdSaveFilename filename = filename ++ ".md"
        ∧ cmdSaveFormat (cmdSaveFilename filename) = "md"
        ∧ (export_session s (cmdSaveFilename filename) "md").2
            = String.intercalate "\n" (formatMarkdown s)) := by
  have hdm : (".md" : String).data.getLast? = some 'd' := rfl
  have hdj : (".json" : String).data.getLast? = some 'n' := rfl
  have hdt : (".txt" : String).data.getLast? = some 't' := rfl
  refine ⟨?_, fun hj => ?_, fun ht => ?_, fun hm => ?_, fun hm hj ht => ?_⟩
  · cases hj : endswith filename ".json"
    · cases ht : endswith filename ".txt"
      · cases hm : endswith filename ".md"
        · -- no recognized extension: ".md" is appended
          have hf : cmdSaveFilename filename = filename ++ ".md" := by
            simp [cmdSaveFilename, hm, hj, ht]
          have hfm : endswith (cmdSaveFilename filename) ".md" = true := by
            rw [hf]; exact endswith_append filename ".md"
          have hfj := endswith_excl _ ".md" ".json" hfm 'd' 'n' hdm hdj (by decide)
          have hft := endswith_excl _ ".md" ".txt" hfm 'd' 't' hdm hdt (by decide)
          simp [export_session, exportFilename, cmdSaveFormat, hfj, hft, hfm]
        · -- filename already ends with ".md"
          have hf : cmdSaveFilename filename = filename := by
            simp [cmdSaveFilename, hm]
          rw [hf]
          have hfj := endswith_excl filename ".md" ".json" hm 'd' 'n' hdm hdj (by decide)
          have hft := endswith_excl filename ".md" ".txt" hm 'd' 't' hdm hdt (by decide)
          simp [export_session, exportFilename, cmdSaveFormat, hfj, hft, hm]
      · -- filename ends with ".txt"
        have hf : cmdSaveFilename filename = filename := by
          simp [cmdSaveFilename, ht]
        rw [hf]
        have hfj := endswith_excl filename ".txt" ".json" ht 't' 'n' hdt hdj (by decide)
        simp [export_session, exportFilename, cmdSaveFormat, hfj, ht]
    · -- filename ends with ".json"
      have hf : cmdSaveFilename filename = filename := by
        simp [cmdSaveFilename, hj]
      rw [hf]
      simp [export_session, exportFilename, cmdSaveFormat, hj]
  · have hf : cmdSaveFilename filename = filename := by
      simp [cmdSaveFilename, hj]
    rw [hf]
    exact ⟨by simp [cmdSaveFormat, hj], by simp [export_session, exportContent]⟩
  · have hf : cmdSaveFilename filename = filename := by
      simp [cmdSaveFilename, ht]
    have hfj := endswith_excl filename ".txt" ".json" ht 't' 'n' hdt hdj (by decide)
    rw [hf]
    exact ⟨by simp [cmdSaveFormat, hfj, ht], by simp [export_session, exportContent]⟩
  · have hf : cmdSaveFilename filename = filename := by
      simp [cmdSaveFilename, hm]
    have hfj := endswith_excl filename ".md" ".json" hm 'd' 'n' hdm hdj (by decide)
    have hft := endswith_excl filename ".md" ".txt" hm 'd' 't' hdm hdt (by decide)
    rw [hf]
    exact ⟨by simp [cmdSaveFormat, hfj, hft], by simp [export_session, exportContent]⟩
  · have hf : cmdSaveFilename filename = filename ++ ".md" := by
      simp [cmdSaveFilename, hm, hj, ht]
    have hfm : endswith (cmdSaveFilename filename) ".md" = true := by
      rw [hf]; exact endswith_append filename ".md"
    have hfj := endswith_excl _ ".md" ".json" hfm 'd' 'n' hdm hdj (by decide)
    have hft := endswith_excl _ ".md" ".txt" hfm 'd' 't' hdm hdt (by decide)
    exact ⟨hf, by simp [cmdSaveFormat, hfj, hft], by simp [export_session, exportContent]⟩

/-- Witness for C9 at the unrecognized-extension filename "notes". -/
theorem savePath_formatInference_witness :
    endswith "notes" ".md" = false
    ∧ cmdSaveFilename "notes" = "notes.md"
    ∧ cmdSaveFormat (cmdSaveFilename "notes") = "md"
    ∧ (export_session exampleSession (cmdSaveFilename "notes") "md").2
        = String.intercalate "\n" (formatMarkdown exampleSession) := by
  have h := (savePath_formatInference exampleSession "notes").2.2.2.2
    (by decide) (by decide) (by decide)
  exact ⟨by decide, h.1.trans (by decide), h.2.1, h.2.2⟩

end Orbiton
